import Mathlib

/-!
Shallow embedding of the projectdiscovery/ratelimit repository:
`src/ratelimit.go` (the single-bucket `Limiter`, its windowed `run` loop and
the leaky-bucket wrapper), `src/keyratelimit.go` and `src/unnamed/part_002`
(the two `Options.Validate` versions), and the `AutoLimiter` keyed registry
from the second file of `src/example/main.go`.

Conventions used throughout:
* `uint32` counters are `Nat` values taken modulo `2 ^ 32` wherever Go
  converts (`uint32(max)`) or wraps (`count.Add(minusOne)`); the sequential
  model reads and writes the `atomic.Uint32` fields directly.
* `time.Duration` is a rational number of seconds.  `time.NewTicker` panics
  when its argument is not positive, so every constructor that creates a
  ticker returns `Option`, with `none` standing for that panic.
* The dependency `golang.org/x/time/rate` is embedded by its documented
  token-bucket accounting: a limit in events per second, an integer burst,
  and a rational token count that advances with elapsed time.
* The windowed `run` goroutine, its `tokens` channel and the two contexts
  are reified as a small transition system (`RunState`/`RunEvent`) whose
  traces are exactly the interleavings the Go scheduler can produce.
-/

/-- Modelled from the spec: the `Strategy` type with constants `None` and
`LeakyBucket` is referenced by `src/ratelimit.go` but its declaration is not
among the files under src/; spec sections 2 and 4 fix exactly two variants
(windowed default and continuous leaky bucket). -/
inductive Strategy where
  | None
  | LeakyBucket
  deriving DecidableEq

/-- src/ratelimit.go `Limiter`.  `maxCount` and `count` hold the values of
the two `atomic.Uint32` fields (hence always `< 2 ^ 32`); `interval` is the
ticker period in seconds.  The three `leaky` fields embed the wrapped
`golang.org/x/time/rate` limiter: its limit (events per second), its burst
(`SetBurst`/`NewLimiter` take a Go `int`) and its current token count.  The
`tokens` channel, the ticker and the contexts live in the run machine below,
not in this record. -/
structure Limiter where
  strategy : Strategy
  maxCount : Nat
  interval : ℚ
  count : Nat
  leakyLimit : ℚ
  leakyBurst : Int
  leakyTokens : ℚ
  deriving DecidableEq

/-- src/ratelimit.go `New`: stores `uint32(max)` into both `maxCount` and
`count` and starts a ticker with period `duration`.  `time.NewTicker` panics
when `duration <= 0`, which the model returns as `none`. -/
def New (max : Nat) (duration : ℚ) : Option Limiter :=
  if duration ≤ 0 then none
  else
    some { strategy := Strategy.None, maxCount := max % 2 ^ 32,
           interval := duration, count := max % 2 ^ 32,
           leakyLimit := 0, leakyBurst := 0, leakyTokens := 0 }

/-- src/ratelimit.go `NewUnlimited`: `math.MaxUint32` tokens refilled every
millisecond.  The 1ms ticker period is positive, so this never panics. -/
def NewUnlimited : Limiter :=
  { strategy := Strategy.None, maxCount := 2 ^ 32 - 1, interval := 1 / 1000,
    count := 2 ^ 32 - 1, leakyLimit := 0, leakyBurst := 0, leakyTokens := 0 }

/-- `rate.Every(interval)` of golang.org/x/time/rate: the limit that permits
one event per `interval`, i.e. `1 / interval` events per second.  (For a
non-positive interval Go returns `rate.Inf`; no claim settled here exercises
that branch, and the theorems about this function carry a positivity
hypothesis.) -/
def rateEvery (d : ℚ) : ℚ := 1 / d

/-- Go's conversion `int(max)` from `uint` on a 64-bit platform: reduce
modulo `2 ^ 64` and reinterpret the bit pattern as two's-complement, so
values `>= 2 ^ 63` come out negative. -/
def intOfUint64 (n : Nat) : Int :=
  if n % 2 ^ 64 < 2 ^ 63 then ((n % 2 ^ 64 : Nat) : Int)
  else ((n % 2 ^ 64 : Nat) : Int) - 2 ^ 64

/-- src/ratelimit.go `NewLeakyBucket`: wraps
`rate.NewLimiter(rate.Every(duration), int(max))`.  The burst is Go's
`int(max)`, which wraps (negative for `max >= 2 ^ 63`).  A fresh x/time/rate
limiter behaves as if its bucket were full, so the initial token count is the
burst.  No ticker is created, hence no panic and no `Option`. -/
def NewLeakyBucket (max : Nat) (duration : ℚ) : Limiter :=
  { strategy := Strategy.LeakyBucket, maxCount := max % 2 ^ 32,
    interval := duration, count := 0,
    leakyLimit := rateEvery duration, leakyBurst := intOfUint64 max,
    leakyTokens := (intOfUint64 max : ℚ) }

/-- src/ratelimit.go `Limiter.GetLimit`: returns `uint(maxCount.Load())`. -/
def Limiter.GetLimit (l : Limiter) : Nat :=
  l.maxCount

/-- src/ratelimit.go `Limiter.SetLimit`: stores `uint32(max)` into
`maxCount`; for the leaky-bucket strategy it additionally calls
`SetBurst(int(max))`, where `int(max)` is the wrapping 64-bit
conversion. -/
def Limiter.SetLimit (l : Limiter) (max : Nat) : Limiter :=
  let l1 := { l with maxCount := max % 2 ^ 32 }
  match l1.strategy with
  | Strategy.LeakyBucket => { l1 with leakyBurst := intOfUint64 max }
  | Strategy.None => l1

/-- src/ratelimit.go `Limiter.SetDuration`: stores the new interval; the
leaky-bucket branch calls `SetLimit(rate.Every(d))` on the wrapped limiter,
the windowed branch resets the ticker period (`ticker.Reset(d)`, whose
timing effect lives in the run machine). -/
def Limiter.SetDuration (l : Limiter) (d : ℚ) : Limiter :=
  let l1 := { l with interval := d }
  match l1.strategy with
  | Strategy.LeakyBucket => { l1 with leakyLimit := rateEvery d }
  | Strategy.None => l1

/-- src/ratelimit.go `Limiter.CanTake`: for the leaky bucket it asks the
wrapped limiter whether `Tokens() > 0`, otherwise it loads the windowed
counter and compares with zero.  The method only performs loads, which the
embedding records by returning the unchanged limiter alongside the answer. -/
def Limiter.CanTake (l : Limiter) : Bool × Limiter :=
  match l.strategy with
  | Strategy.LeakyBucket => (decide (0 < l.leakyTokens), l)
  | Strategy.None => (decide (0 < l.count), l)

/-- The token accounting of golang.org/x/time/rate `advance`: after
`elapsed` seconds the stored tokens grow by `elapsed * limit`, capped at the
burst.  (`Tokens()` reports this quantity at the current instant.) -/
def Limiter.advance (l : Limiter) (elapsed : ℚ) : Limiter :=
  { l with
    leakyTokens := min (l.leakyBurst : ℚ) (l.leakyTokens + elapsed * l.leakyLimit) }

/-- Modelled from the spec: section 4.2's accrual rate for the continuous
strategy, "accruing fractional permits at rate `maxCount / interval`".  This
definition follows the spec's words only, to be compared with the rate the
code actually configures. -/
def specAccrualRate (max : Nat) (interval : ℚ) : ℚ :=
  (max : ℚ) / interval

/-- `^uint32(0)` added to a `uint32`, i.e. `count.Add(minusOne)` from
src/ratelimit.go line 47: decrement modulo `2 ^ 32`. -/
def decUint32 (c : Nat) : Nat :=
  (c + (2 ^ 32 - 1)) % 2 ^ 32

/-- State of the windowed `run` goroutine of src/ratelimit.go together with
one ghost field.  `count` is the `atomic.Uint32` permit counter; `takes`
counts successful hand-outs since the most recent counter reset (ghost,
not in the Go code); `canceled` records that `Stop` has canceled the
internal context; `closed` records that `run` has returned and its deferred
`close(limiter.tokens)` has run. -/
structure RunState where
  count : Nat
  takes : Nat
  canceled : Bool
  closed : Bool
  deriving DecidableEq

/-- The scheduler choices of one observable step of `run`/`Take`/`Stop`:
`handOut` is the select branch `limiter.tokens <- struct{}{}` rendezvousing
with a `Take`; `tick` is a ticker firing (either the blocking read at the
top of the loop when the counter is exhausted, or the select branch), which
resets the counter; `stop` is `Stop()` canceling the internal context;
`exitRun` is `run` taking a `ctx.Done()` branch and returning, firing the
deferred `close(limiter.tokens)`; `takeClosed` is a `Take` completing by
receiving from the closed channel. -/
inductive RunEvent where
  | handOut
  | tick
  | stop
  | exitRun
  | takeClosed
  deriving DecidableEq

/-- One step of the windowed machine (src/ratelimit.go lines 31-62,
101-109).  `maxCount` is the stored `uint32` value of the limit, held fixed
(no concurrent `SetLimit`).  In `handOut` and `tick`, the guard at the top
of the loop is inlined: a loop iteration that begins with `count = 0` first
blocks for a tick and resets the counter (a reset by exhaustion) before the
select runs.  `none` means the event cannot occur in that state. -/
def runStep (maxCount : Nat) (s : RunState) (ev : RunEvent) : Option RunState :=
  match ev with
  | RunEvent.stop => some { s with canceled := true }
  | RunEvent.takeClosed => if s.closed then some s else none
  | RunEvent.exitRun =>
      if s.canceled && !s.closed then some { s with closed := true } else none
  | RunEvent.handOut =>
      if s.closed then none
      else
        let s1 := if s.count = 0 then { s with count := maxCount, takes := 0 } else s
        some { s1 with count := decUint32 s1.count, takes := s1.takes + 1 }
  | RunEvent.tick =>
      if s.closed then none
      else some { s with count := maxCount, takes := 0 }

/-- A maximal interleaving: run the machine over a list of events. -/
def runTrace (maxCount : Nat) (s : RunState) (evs : List RunEvent) : Option RunState :=
  evs.foldlM (runStep maxCount) s

/-- The state right after `New` returns: `count.Store(uint32(max))`, no
hand-out yet, contexts alive, channel open. -/
def initRun (max : Nat) : RunState :=
  { count := max % 2 ^ 32, takes := 0, canceled := false, closed := false }

/-- src/keyratelimit.go `Options` (the fields of src/unnamed/part_002's
`Options` and of main.go's `internalOptions` are identical). -/
structure Options where
  Key : String
  IsUnlimited : Bool
  MaxCount : Nat
  Duration : ℚ
  deriving DecidableEq

/-- src/keyratelimit.go `Options.Validate`: for a non-unlimited config it
rejects an empty key, a zero `MaxCount` and a `Duration` equal to zero (and
only equal: the Go comparison is `o.Duration == 0`). -/
def Options.Validate (o : Options) : Option String :=
  if o.IsUnlimited then none
  else if o.Key = "" then some "empty keys not allowed"
  else if o.MaxCount = 0 then some "maxcount cannot be zero"
  else if o.Duration = 0 then some "time duration not set"
  else none

/-- src/unnamed/part_002 `Options.Validate`: rejects an empty key first,
before the unlimited short-circuit; for non-unlimited configs it rejects a
zero `MaxCount` and any `Duration <= 0`. -/
def validatePart002 (o : Options) : Option String :=
  if o.Key = "" then some "empty keys not allowed"
  else if o.IsUnlimited then none
  else if o.MaxCount = 0 then some "maxcount cannot be zero"
  else if o.Duration ≤ 0 then some "time duration must be > 0"
  else none

/-- src/example/main.go `internalOptions` (same fields as `Options`; kept as
a separate name because the registry code names it differently). -/
structure InternalOptions where
  Key : String
  IsUnlimited : Bool
  MaxCount : Nat
  Duration : ℚ
  deriving DecidableEq

/-- src/example/main.go `AutoLimiterOption`: each functional option rewrites
the default-options record of the limiter it is applied to, so its action is
a map on `internalOptions`. -/
abbrev AutoLimiterOption := InternalOptions → InternalOptions

/-- src/example/main.go `WithUnlimited`. -/
def WithUnlimited : AutoLimiterOption :=
  fun o => { o with IsUnlimited := true }

/-- src/example/main.go `WithDuration`. -/
def WithDuration (duration : ℚ) : AutoLimiterOption :=
  fun o => { o with Duration := duration }

/-- src/example/main.go `WithMaxCount`. -/
def WithMaxCount (maxCount : Nat) : AutoLimiterOption :=
  fun o => { o with MaxCount := maxCount }

/-- The option application at the top of `AutoLimiter.Add`: start from
`&internalOptions{Key: key}` (all other fields zero) and apply each option
in order through a temporary limiter. -/
def applyOpts (key : String) (opts : List AutoLimiterOption) : InternalOptions :=
  opts.foldl (fun acc f => f acc)
    { Key := key, IsUnlimited := false, MaxCount := 0, Duration := 0 }

/-- The validation inlined in src/example/main.go `AutoLimiter.Add`
(lines 153-163): the same three checks as `Options.Validate`, on the `key`
argument and the assembled options. -/
def validateAdd (key : String) (o : InternalOptions) : Option String :=
  if o.IsUnlimited then none
  else if key = "" then some "empty keys not allowed"
  else if o.MaxCount = 0 then some "maxcount cannot be zero"
  else if o.Duration = 0 then some "time duration not set"
  else none

/-- Point update of a map modelling `sync.Map.Store`. -/
def mapStore {α : Type} (m : String → Option α) (k : String) (v : α) :
    String → Option α :=
  fun q => if q = k then some v else m q

/-- Point removal of a map modelling `sync.Map.Delete`. -/
def mapDelete {α : Type} (m : String → Option α) (k : String) :
    String → Option α :=
  fun q => if q = k then none else m q

/-- src/example/main.go `AutoLimiter`: the two `sync.Map`s (live limiters
and remembered custom options) and the default options.  The context only
feeds limiter construction and is not part of the state. -/
structure AutoLimiter where
  limiters : String → Option Limiter
  options : String → Option InternalOptions
  defaultOptions : InternalOptions

/-- src/example/main.go `NewAutoLimiter`: zero-valued defaults, then the
functional options applied in order; both maps start empty. -/
def NewAutoLimiter (opts : List AutoLimiterOption) : AutoLimiter :=
  { limiters := fun _ => none, options := fun _ => none,
    defaultOptions := opts.foldl (fun acc f => f acc)
      { Key := "", IsUnlimited := false, MaxCount := 0, Duration := 0 } }

/-- src/example/main.go `AutoLimiter.get`: look the key up in the live map;
a miss is `ErrAutoKeyMissing` (here `none`).  The stored value is always a
`*Limiter`, so the failed-type-assertion branch cannot fire. -/
def AutoLimiter.get (e : AutoLimiter) (key : String) : Option Limiter :=
  e.limiters key

/-- The constructor dispatch shared by `Add`, `recreateLimiter` and
`createOrDefault`: `NewUnlimited` for an unlimited config, else
`New(maxCount, duration)`.  `none` is the `time.NewTicker` panic. -/
def limOfOpts (o : InternalOptions) : Option Limiter :=
  if o.IsUnlimited then some NewUnlimited else New o.MaxCount o.Duration

/-- src/example/main.go `AutoLimiter.Add`: assemble the options, run the
inline validation, fail with `ErrAutoKeyAlreadyExists` when the key is in
the *live* map, otherwise construct the limiter and store it and the
options.  Result: `none` for a construction panic, otherwise the resulting
registry and the returned error (`none` = nil). -/
def AutoLimiter.Add (e : AutoLimiter) (key : String) (opts : List AutoLimiterOption) :
    Option (AutoLimiter × Option String) :=
  let options := applyOpts key opts
  match validateAdd key options with
  | some msg => some (e, some msg)
  | none =>
    match e.limiters key with
    | some _ => some (e, some "key already exists")
    | none =>
      match limOfOpts options with
      | none => none
      | some rlimiter =>
        some ({ e with limiters := mapStore e.limiters key rlimiter,
                       options := mapStore e.options key options }, none)

/-- src/example/main.go `AutoLimiter.recreateLimiter`: rebuild a limiter
from the remembered options; `Except.error` is the returned Go error when no
options are remembered (the failed-type-assertion branch cannot fire),
`none` is a construction panic. -/
def AutoLimiter.recreateLimiter (e : AutoLimiter) (key : String) :
    Option (Except String (Limiter × AutoLimiter)) :=
  match e.options key with
  | none => some (Except.error "key does not exist")
  | some opts =>
    match limOfOpts opts with
    | none => none
    | some rlimiter =>
      some (Except.ok (rlimiter, { e with limiters := mapStore e.limiters key rlimiter }))

/-- The tail of src/example/main.go `AutoLimiter.createOrDefault`: no custom
options, so build from the registry's default options and store the limiter
in the live map only (the code deliberately does not store options for
default limiters). -/
def AutoLimiter.defaultPath (e : AutoLimiter) (key : String) :
    Option (Limiter × AutoLimiter) :=
  match limOfOpts e.defaultOptions with
  | none => none
  | some limiter => some (limiter, { e with limiters := mapStore e.limiters key limiter })

/-- src/example/main.go `AutoLimiter.createOrDefault`: prefer recreation
from remembered custom options, falling back to the default options when
recreation reports an error; a construction panic propagates. -/
def AutoLimiter.createOrDefault (e : AutoLimiter) (key : String) :
    Option (Limiter × AutoLimiter) :=
  match e.options key with
  | some _ =>
    match e.recreateLimiter key with
    | none => none
    | some (Except.ok r) => some r
    | some (Except.error _) => e.defaultPath key
  | none => e.defaultPath key

/-- src/example/main.go `AutoLimiter.Take`: fetch or auto-provision the
limiter, block on it, return nil.  The registry-level effect of
`limiter.Take()` is nil (the hand-out happens in the run machine), so the
result is the possibly-extended registry; `none` is a construction panic. -/
def AutoLimiter.Take (e : AutoLimiter) (key : String) : Option AutoLimiter :=
  match e.get key with
  | some _ => some e
  | none =>
    match e.createOrDefault key with
    | none => none
    | some (_, e1) => some e1

/-- src/example/main.go `AutoLimiter.CanTake`: fetch or auto-provision, then
the limiter's non-blocking `CanTake`. -/
def AutoLimiter.CanTake (e : AutoLimiter) (key : String) :
    Option (Bool × AutoLimiter) :=
  match e.get key with
  | some limiter => some ((Limiter.CanTake limiter).1, e)
  | none =>
    match e.createOrDefault key with
    | none => none
    | some (limiter, e1) => some ((Limiter.CanTake limiter).1, e1)

/-- src/example/main.go `AutoLimiter.Allow`: its body is the same as
`CanTake`'s, line for line. -/
def AutoLimiter.Allow (e : AutoLimiter) (key : String) :
    Option (Bool × AutoLimiter) :=
  match e.get key with
  | some limiter => some ((Limiter.CanTake limiter).1, e)
  | none =>
    match e.createOrDefault key with
    | none => none
    | some (limiter, e1) => some ((Limiter.CanTake limiter).1, e1)

/-- src/example/main.go `AutoLimiter.AllowN`: fetch or auto-provision, then
`n` sequential `CanTake` checks (each a pure read, so the loop is `n`
repetitions of the same test). -/
def AutoLimiter.AllowN (e : AutoLimiter) (key : String) (n : Nat) :
    Option (Bool × AutoLimiter) :=
  match e.get key with
  | some limiter =>
    some ((List.range n).all (fun _ => (Limiter.CanTake limiter).1), e)
  | none =>
    match e.createOrDefault key with
    | none => none
    | some (limiter, e1) =>
      some ((List.range n).all (fun _ => (Limiter.CanTake limiter).1), e1)

/-- src/example/main.go `AutoLimiter.Stop`: with no keys, range over the
live map stopping and deleting every limiter (options kept); with keys,
stop and delete each key that has a live limiter, skipping misses.  The
stopped limiter record is dropped from the map, so `limiter.Stop()`'s
effect on it is not retained. -/
def AutoLimiter.Stop (e : AutoLimiter) (keys : List String) : AutoLimiter :=
  if keys = [] then { e with limiters := fun _ => none }
  else
    keys.foldl
      (fun acc v =>
        match acc.limiters v with
        | some _ => { acc with limiters := mapDelete acc.limiters v }
        | none => acc)
      e

/-- src/example/main.go `AutoLimiter.Remove`: stop and delete the live
limiter if present, then delete the remembered options unconditionally. -/
def AutoLimiter.Remove (e : AutoLimiter) (key : String) : AutoLimiter :=
  match e.limiters key with
  | some _ =>
    { e with limiters := mapDelete e.limiters key,
             options := mapDelete e.options key }
  | none => { e with options := mapDelete e.options key }

/-- src/example/main.go `AutoLimiter.AddAndTake`: take from an existing
limiter, else `Add` then `Take`, propagating `Add`'s error. -/
def AutoLimiter.AddAndTake (e : AutoLimiter) (key : String)
    (opts : List AutoLimiterOption) : Option (AutoLimiter × Option String) :=
  match e.get key with
  | some _ => some (e, none)
  | none =>
    match e.Add key opts with
    | none => none
    | some (e1, some msg) => some (e1, some msg)
    | some (e1, none) =>
      match e1.Take key with
      | none => none
      | some e2 => some (e2, none)

/-- The remembered configuration used by auto-provisioning for `key`:
the stored custom options if any, else the registry defaults (this is the
case split at the top of `createOrDefault`). -/
def effectiveOpts (e : AutoLimiter) (key : String) : InternalOptions :=
  (e.options key).getD e.defaultOptions

/-- The public registry operations of src/example/main.go, reified so that a
single statement can quantify over them. -/
inductive RegistryOp where
  | add (key : String) (opts : List AutoLimiterOption)
  | take (key : String)
  | canTake (key : String)
  | allow (key : String)
  | allowN (key : String) (n : Nat)
  | addAndTake (key : String) (opts : List AutoLimiterOption)
  | stop (keys : List String)
  | remove (key : String)

/-- Whether a reified operation is `Remove`. -/
def RegistryOp.isRemove : RegistryOp → Bool
  | RegistryOp.remove _ => true
  | _ => false

/-- Run a reified registry operation, keeping only the registry state
(`none` is a construction panic). -/
def applyOp (e : AutoLimiter) : RegistryOp → Option AutoLimiter
  | RegistryOp.add key opts => (e.Add key opts).map (fun r => r.1)
  | RegistryOp.take key => e.Take key
  | RegistryOp.canTake key => (e.CanTake key).map (fun r => r.2)
  | RegistryOp.allow key => (e.Allow key).map (fun r => r.2)
  | RegistryOp.allowN key n => (e.AllowN key n).map (fun r => r.2)
  | RegistryOp.addAndTake key opts => (e.AddAndTake key opts).map (fun r => r.1)
  | RegistryOp.stop keys => some (e.Stop keys)
  | RegistryOp.remove key => some (e.Remove key)

/-- Concrete fixture: the limiter `New(ctx, 5, 1s)` builds (used by witness
and counterexample theorems as a sample state). -/
def limFive : Limiter :=
  { strategy := Strategy.None, maxCount := 5, interval := 1, count := 5,
    leakyLimit := 0, leakyBurst := 0, leakyTokens := 0 }

/-- Concrete fixture: the limiter `New(ctx, 2^32 + 7, 1s)` builds — the
capacity truncates to 7. -/
def limSeven : Limiter :=
  { strategy := Strategy.None, maxCount := 7, interval := 1, count := 7,
    leakyLimit := 0, leakyBurst := 0, leakyTokens := 0 }

/-- Concrete fixture: a remembered custom configuration for key "k". -/
def optsK : InternalOptions :=
  { Key := "k", IsUnlimited := false, MaxCount := 5, Duration := 1 }

/-- Concrete fixture: a small valid default configuration. -/
def defOptsSmall : InternalOptions :=
  { Key := "", IsUnlimited := false, MaxCount := 2, Duration := 1 }

/-- Concrete fixture: a registry with a live limiter at "k" and no
remembered options. -/
def regLive : AutoLimiter :=
  { limiters := fun q => if q = "k" then some limFive else none,
    options := fun _ => none, defaultOptions := defOptsSmall }

/-- Concrete fixture: a registry with only a remembered configuration at
"k" (the state after `Add("k", ...)` then `Stop("k")`). -/
def regRemembered : AutoLimiter :=
  { limiters := fun _ => none,
    options := fun q => if q = "k" then some optsK else none,
    defaultOptions := defOptsSmall }

/-- Concrete fixture: a registry with both a live limiter and a remembered
configuration at "k". -/
def regBoth : AutoLimiter :=
  { limiters := fun q => if q = "k" then some limFive else none,
    options := fun q => if q = "k" then some optsK else none,
    defaultOptions := defOptsSmall }

/-- Decrementing a positive `uint32` value wraps to the ordinary
predecessor. -/
theorem decUint32_of_pos (c : Nat) (h1 : 1 ≤ c) (h2 : c < 2 ^ 32) :
    decUint32 c = c - 1 := by
  unfold decUint32
  have h : c + (2 ^ 32 - 1) = (c - 1) + 2 ^ 32 := by omega
  rw [h, Nat.add_mod_right, Nat.mod_eq_of_lt (by omega)]

/-- One step of `run` with a fixed nonzero stored limit keeps the channel
open and keeps `count + takes = maxCount`, as long as the event is not the
goroutine exit. -/
theorem runStep_preserves (maxCount : Nat) (h1 : 1 ≤ maxCount)
    (h2 : maxCount < 2 ^ 32) (s t : RunState) (ev : RunEvent)
    (hev : ev ≠ RunEvent.exitRun)
    (hc : s.closed = false) (hsum : s.count + s.takes = maxCount)
    (ht : runStep maxCount s ev = some t) :
    t.closed = false ∧ t.count + t.takes = maxCount := by
  rcases s with ⟨c, tk, cn, cl⟩
  cases cl with
  | true => simp at hc
  | false =>
    have hsum1 : c + tk = maxCount := hsum
    cases ev with
    | stop =>
      simp only [runStep, Option.some.injEq] at ht
      subst ht
      exact ⟨rfl, hsum1⟩
    | takeClosed =>
      simp [runStep] at ht
    | exitRun =>
      exact absurd rfl hev
    | handOut =>
      by_cases hz : c = 0
      · simp [runStep, hz] at ht
        subst ht
        refine ⟨rfl, ?_⟩
        show decUint32 maxCount + (0 + 1) = maxCount
        rw [decUint32_of_pos maxCount h1 h2]
        omega
      · simp [runStep, hz] at ht
        subst ht
        refine ⟨rfl, ?_⟩
        show decUint32 c + (tk + 1) = maxCount
        rw [decUint32_of_pos c (by omega) (by omega)]
        omega
    | tick =>
      simp [runStep] at ht
      subst ht
      exact ⟨rfl, by show maxCount + 0 = maxCount; omega⟩

/-- Trace form of the invariant: any interleaving without a goroutine exit
preserves the open channel and `count + takes = maxCount`. -/
theorem runTrace_preserves (maxCount : Nat) (h1 : 1 ≤ maxCount)
    (h2 : maxCount < 2 ^ 32) :
    ∀ (evs : List RunEvent) (s : RunState), RunEvent.exitRun ∉ evs →
      s.closed = false → s.count + s.takes = maxCount →
      ∀ t, runTrace maxCount s evs = some t →
        t.closed = false ∧ t.count + t.takes = maxCount := by
  intro evs
  induction evs with
  | nil =>
    intro s _ hc hsum t ht
    simp only [runTrace, List.foldlM_nil, pure, Option.some.injEq] at ht
    subst ht
    exact ⟨hc, hsum⟩
  | cons ev evs ih =>
    intro s hmem hc hsum t ht
    simp only [runTrace, List.foldlM_cons] at ht
    cases hstep : runStep maxCount s ev with
    | none =>
      rw [hstep] at ht
      simp at ht
    | some s1 =>
      rw [hstep] at ht
      simp only [Option.bind_eq_bind, Option.some_bind] at ht
      have hnev : ev ≠ RunEvent.exitRun := by
        intro h
        exact hmem (h ▸ List.mem_cons_self _ _)
      have hinv := runStep_preserves maxCount h1 h2 s s1 ev hnev hc hsum hstep
      exact ih s1 (fun h => hmem (List.mem_cons_of_mem _ h)) hinv.1 hinv.2 t ht

/-- C1 (amended): for every stored limit `maxCount` with `1 ≤ maxCount`
(`maxCount` is the `uint32` the atomics hold, so `maxCount < 2 ^ 32`), along
every interleaving of hand-outs and ticker resets in which the run goroutine
has not exited, the number of successful `Take` completions counted from the
most recent counter reset (by timer or by exhaustion) never exceeds
`maxCount`.  The original claim quantified over *every* `maxCount`; it fails
at `maxCount = 0`, where the wrap of `count.Add(minusOne)` admits takes
after a reset. -/
theorem windowed_takes_le_max (maxCount : Nat) (h1 : 1 ≤ maxCount)
    (h2 : maxCount < 2 ^ 32) (evs : List RunEvent)
    (hne : RunEvent.exitRun ∉ evs) (t : RunState)
    (ht : runTrace maxCount (initRun maxCount) evs = some t) :
    t.takes ≤ maxCount := by
  have h32 : maxCount % 2 ^ 32 = maxCount := Nat.mod_eq_of_lt h2
  have h := runTrace_preserves maxCount h1 h2 evs (initRun maxCount) hne rfl
    (by show maxCount % 2 ^ 32 + 0 = maxCount; omega) t ht
  omega

/-- C1 witness: limit 2, three hand-out attempts; the third forces an
exhaustion reset first, and the takes-since-reset count stays at most 2. -/
theorem windowed_takes_le_max_witness :
    1 ≤ 2 ∧ (2 : Nat) < 2 ^ 32 ∧
    RunEvent.exitRun ∉ [RunEvent.handOut, RunEvent.handOut, RunEvent.handOut] ∧
    runTrace 2 (initRun 2) [RunEvent.handOut, RunEvent.handOut, RunEvent.handOut] =
      some { count := 1, takes := 1, canceled := false, closed := false } ∧
    ({ count := 1, takes := 1, canceled := false, closed := false } : RunState).takes ≤ 2 :=
  ⟨by decide, by decide, by decide, by decide,
    windowed_takes_le_max 2 (by decide) (by decide)
      [RunEvent.handOut, RunEvent.handOut, RunEvent.handOut] (by decide) _ (by decide)⟩

/-- C1 counterexample: with `maxCount = 0` (reachable through the public
`New(ctx, 0, d)`), the first tick resets the counter to 0, the select can
still hand a token to a parked `Take`, and the counter wraps: one successful
take in the window already exceeds `maxCount = 0`, so the claim's bound
fails as stated for every `maxCount`. -/
theorem windowed_zero_max_overadmits :
    RunEvent.exitRun ∉ [RunEvent.handOut] ∧
    runTrace 0 (initRun 0) [RunEvent.handOut] =
      some { count := 2 ^ 32 - 1, takes := 1, canceled := false, closed := false } ∧
    ¬ ({ count := 2 ^ 32 - 1, takes := 1, canceled := false,
         closed := false } : RunState).takes ≤ 0 := by
  decide

/-- C2 (amended): once `run` has returned and its deferred
`close(limiter.tokens)` has fired, every parked or subsequently issued
`Take()` completes immediately by receiving from the closed channel, leaving
the machine state unchanged; and whenever `Stop()` has canceled the internal
context and the goroutine is still alive, the exit step that closes the
channel is enabled.  The original claim said such `Take()` calls block
forever; they return instead. -/
theorem stopped_take_returns (maxCount : Nat) (s : RunState) :
    (s.closed = true → runStep maxCount s RunEvent.takeClosed = some s) ∧
    (s.canceled = true → s.closed = false →
      runStep maxCount s RunEvent.exitRun = some { s with closed := true }) := by
  constructor
  · intro h
    simp [runStep, h]
  · intro h1 h2
    simp [runStep, h1, h2]

/-- C2 witness: a canceled-but-alive state can exit, and a closed state lets
a `Take` complete with no state change. -/
theorem stopped_take_returns_witness :
    (({ count := 5, takes := 0, canceled := true, closed := true } : RunState).closed = true ∧
      runStep 5 { count := 5, takes := 0, canceled := true, closed := true }
        RunEvent.takeClosed =
        some { count := 5, takes := 0, canceled := true, closed := true }) ∧
    (({ count := 5, takes := 0, canceled := true, closed := false } : RunState).canceled = true ∧
      runStep 5 { count := 5, takes := 0, canceled := true, closed := false }
        RunEvent.exitRun =
        some { count := 5, takes := 0, canceled := true, closed := true }) :=
  ⟨⟨by decide, (stopped_take_returns 5 _).1 (by decide)⟩,
    ⟨by decide, (stopped_take_returns 5 _).2 (by decide) (by decide)⟩⟩

/-- C2 counterexample: `Stop`, then the goroutine exits (running the
deferred `close`), then a `Take` issued after `Stop` completes — the trace
is executable, refuting "never returns (blocks forever)". -/
theorem stop_then_take_completes :
    runTrace 5 (initRun 5) [RunEvent.stop, RunEvent.exitRun, RunEvent.takeClosed] =
      some { count := 5, takes := 0, canceled := true, closed := true } := by
  decide

/-- Below `2 ^ 63` Go's `int(max)` conversion is the identity. -/
theorem intOfUint64_of_lt (n : Nat) (h : n < 2 ^ 63) :
    intOfUint64 n = (n : Int) := by
  unfold intOfUint64
  have h1 : n % 2 ^ 64 = n := Nat.mod_eq_of_lt (by omega)
  rw [h1, if_pos h]

/-- C3 (amended): `NewLeakyBucket(ctx, max, duration)` configures the
wrapped limiter with `rate.Every(duration)`, i.e. the accrual rate is
`1 / interval` — one permit per interval, not `maxCount / interval` — and
`SetDuration(d)` adjusts the accrual rate to `1 / d`.  The burst capacity is
Go's `int(max)`: it equals `maxCount` and caps the accrued tokens whenever
`max < 2 ^ 63`; larger values wrap to a negative burst. -/
theorem leaky_rate_one_per_interval (max : Nat) (d dNew t : ℚ)
    (hd : 0 < d) (hdNew : 0 < dNew) (hmax : max < 2 ^ 63) :
    (NewLeakyBucket max d).leakyLimit = 1 / d ∧
    (NewLeakyBucket max d).leakyBurst = (max : Int) ∧
    ((NewLeakyBucket max d).SetDuration dNew).leakyLimit = 1 / dNew ∧
    ((NewLeakyBucket max d).advance t).leakyTokens ≤ (max : ℚ) := by
  have hb : intOfUint64 max = (max : Int) := intOfUint64_of_lt max hmax
  refine ⟨rfl, hb, rfl, ?_⟩
  have hcast : ((intOfUint64 max : Int) : ℚ) = (max : ℚ) := by
    rw [hb]
    push_cast
    rfl
  calc ((NewLeakyBucket max d).advance t).leakyTokens
      ≤ ((intOfUint64 max : Int) : ℚ) := min_le_left _ _
    _ = (max : ℚ) := hcast

/-- C3 witness: `max = 2`, `interval = 1s`, new duration `2s`, elapsed
`3s`. -/
theorem leaky_rate_one_per_interval_witness :
    (0 : ℚ) < 1 ∧ (0 : ℚ) < 2 ∧ (2 : Nat) < 2 ^ 63 ∧
    (NewLeakyBucket 2 1).leakyLimit = 1 / 1 ∧
    (NewLeakyBucket 2 1).leakyBurst = (2 : Int) ∧
    ((NewLeakyBucket 2 1).SetDuration 2).leakyLimit = 1 / 2 ∧
    ((NewLeakyBucket 2 1).advance 3).leakyTokens ≤ (2 : ℚ) :=
  ⟨by decide, by decide, by decide,
    (leaky_rate_one_per_interval 2 1 2 3 (by decide) (by decide) (by decide)).1,
    (leaky_rate_one_per_interval 2 1 2 3 (by decide) (by decide) (by decide)).2.1,
    (leaky_rate_one_per_interval 2 1 2 3 (by decide) (by decide) (by decide)).2.2.1,
    (leaky_rate_one_per_interval 2 1 2 3 (by decide) (by decide) (by decide)).2.2.2⟩

/-- C3 counterexample: for `max = 2`, `interval = 1s` the configured rate is
`1` permit per second, while the spec's `maxCount / interval` accrual rate
would be `2` — the claim's rate is wrong whenever `maxCount ≠ 1`. -/
theorem leaky_rate_ne_spec :
    (NewLeakyBucket 2 1).leakyLimit = 1 ∧ specAccrualRate 2 1 = 2 ∧
    (NewLeakyBucket 2 1).leakyLimit ≠ specAccrualRate 2 1 := by
  refine ⟨?_, ?_, ?_⟩ <;> norm_num [NewLeakyBucket, rateEvery, specAccrualRate]

/-- C4 (amended): `Options.Validate` of src/keyratelimit.go and the inline
validation of `AutoLimiter.Add` reject exactly the non-unlimited configs
with an empty key, a zero `maxCount`, or a duration *equal to zero* —
negative durations pass; `Options.Validate` of src/unnamed/part_002 rejects
exactly an empty key (even for unlimited configs) or a non-unlimited config
with a zero `maxCount` or a non-positive duration. -/
theorem validate_characterization (o : Options) (key : String) (io : InternalOptions) :
    ((Options.Validate o).isSome = true ↔
      o.IsUnlimited = false ∧ (o.Key = "" ∨ o.MaxCount = 0 ∨ o.Duration = 0)) ∧
    ((validatePart002 o).isSome = true ↔
      o.Key = "" ∨ (o.IsUnlimited = false ∧ (o.MaxCount = 0 ∨ o.Duration ≤ 0))) ∧
    ((validateAdd key io).isSome = true ↔
      io.IsUnlimited = false ∧ (key = "" ∨ io.MaxCount = 0 ∨ io.Duration = 0)) := by
  refine ⟨?_, ?_, ?_⟩
  · rcases o with ⟨k, u, m, dur⟩
    cases u <;> simp only [Options.Validate] <;> split_ifs <;> simp_all
  · rcases o with ⟨k, u, m, dur⟩
    cases u <;> simp only [validatePart002] <;> split_ifs <;> simp_all
  · rcases io with ⟨k, u, m, dur⟩
    cases u <;> simp only [validateAdd] <;> split_ifs <;> simp_all

/-- C4 counterexample: a non-unlimited config with duration `-1` passes
`Options.Validate` (the claim requires non-positive intervals to be
rejected), and an unlimited config with an empty key is rejected by
part_002's `Validate` (the claim says unlimited configs never yield a
validation error). -/
theorem validate_negative_and_unlimited :
    Options.Validate
        { Key := "k", IsUnlimited := false, MaxCount := 1, Duration := -1 } = none ∧
    (validatePart002
        { Key := "", IsUnlimited := true, MaxCount := 0, Duration := 0 }).isSome = true := by
  decide

/-- `defaultPath` stores into the live map only; the options map is kept. -/
theorem defaultPath_options (e : AutoLimiter) (key : String)
    (r : Limiter × AutoLimiter) (h : e.defaultPath key = some r) :
    r.2.options = e.options := by
  unfold AutoLimiter.defaultPath at h
  cases hl : limOfOpts e.defaultOptions with
  | none =>
    rw [hl] at h
    exact Option.noConfusion h
  | some l =>
    rw [hl] at h
    have h2 : some (l, { e with limiters := mapStore e.limiters key l }) = some r := h
    cases h2
    rfl

/-- `recreateLimiter` stores into the live map only; the options map is
kept. -/
theorem recreate_options (e : AutoLimiter) (key : String)
    (r : Limiter × AutoLimiter)
    (h : e.recreateLimiter key = some (Except.ok r)) :
    r.2.options = e.options := by
  unfold AutoLimiter.recreateLimiter at h
  cases ho : e.options key with
  | none =>
    rw [ho] at h
    have h2 : Except.error "key does not exist" = Except.ok r := Option.some.inj h
    exact Except.noConfusion h2
  | some o =>
    rw [ho] at h
    have h1 : (match limOfOpts o with
        | none => (none : Option (Except String (Limiter × AutoLimiter)))
        | some rlimiter =>
          some (Except.ok (rlimiter,
            { e with limiters := mapStore e.limiters key rlimiter }))) =
        some (Except.ok r) := h
    cases hl : limOfOpts o with
    | none =>
      rw [hl] at h1
      exact Option.noConfusion h1
    | some l =>
      rw [hl] at h1
      have h2 : Except.ok (l, { e with limiters := mapStore e.limiters key l }) =
          Except.ok r := Option.some.inj h1
      cases h2
      rfl

/-- `createOrDefault` stores into the live map only; the options map is
kept. -/
theorem createOrDefault_options (e : AutoLimiter) (key : String)
    (r : Limiter × AutoLimiter) (h : e.createOrDefault key = some r) :
    r.2.options = e.options := by
  unfold AutoLimiter.createOrDefault at h
  cases ho : e.options key with
  | none =>
    rw [ho] at h
    exact defaultPath_options e key r h
  | some o =>
    rw [ho] at h
    cases hr : AutoLimiter.recreateLimiter e key with
    | none =>
      rw [hr] at h
      exact Option.noConfusion h
    | some exc =>
      cases exc with
      | ok r1 =>
        rw [hr] at h
        have h2 : some r1 = some r := h
        cases h2
        exact recreate_options e key _ hr
      | error msg =>
        rw [hr] at h
        exact defaultPath_options e key r h

/-- `Take` leaves the remembered options unchanged. -/
theorem take_options (e : AutoLimiter) (key : String) (e1 : AutoLimiter)
    (h : e.Take key = some e1) : e1.options = e.options := by
  unfold AutoLimiter.Take AutoLimiter.get at h
  cases hl : e.limiters key with
  | some l =>
    rw [hl] at h
    have h2 : some e = some e1 := h
    cases h2
    rfl
  | none =>
    rw [hl] at h
    cases hc : e.createOrDefault key with
    | none =>
      rw [hc] at h
      exact Option.noConfusion h
    | some r =>
      rw [hc] at h
      have h2 : some r.2 = some e1 := h
      cases h2
      exact createOrDefault_options e key r hc

/-- `CanTake` leaves the remembered options unchanged. -/
theorem cantake_options (e : AutoLimiter) (key : String) (r : Bool × AutoLimiter)
    (h : e.CanTake key = some r) : r.2.options = e.options := by
  unfold AutoLimiter.CanTake AutoLimiter.get at h
  cases hl : e.limiters key with
  | some l =>
    rw [hl] at h
    have h2 : some ((Limiter.CanTake l).1, e) = some r := h
    cases h2
    rfl
  | none =>
    rw [hl] at h
    cases hc : e.createOrDefault key with
    | none =>
      rw [hc] at h
      exact Option.noConfusion h
    | some r1 =>
      rw [hc] at h
      have h2 : some ((Limiter.CanTake r1.1).1, r1.2) = some r := h
      cases h2
      exact createOrDefault_options e key r1 hc

/-- `Allow` has the same body as `CanTake`, so the same frame fact holds. -/
theorem allow_options (e : AutoLimiter) (key : String) (r : Bool × AutoLimiter)
    (h : e.Allow key = some r) : r.2.options = e.options :=
  cantake_options e key r h

/-- `AllowN` leaves the remembered options unchanged. -/
theorem allowN_options (e : AutoLimiter) (key : String) (n : Nat)
    (r : Bool × AutoLimiter) (h : e.AllowN key n = some r) :
    r.2.options = e.options := by
  unfold AutoLimiter.AllowN AutoLimiter.get at h
  cases hl : e.limiters key with
  | some l =>
    rw [hl] at h
    have h2 : some ((List.range n).all (fun _ => (Limiter.CanTake l).1), e) = some r := h
    cases h2
    rfl
  | none =>
    rw [hl] at h
    cases hc : e.createOrDefault key with
    | none =>
      rw [hc] at h
      exact Option.noConfusion h
    | some r1 =>
      rw [hc] at h
      have h2 : some ((List.range n).all (fun _ => (Limiter.CanTake r1.1).1), r1.2) =
          some r := h
      cases h2
      exact createOrDefault_options e key r1 hc

/-- `Add` either leaves the options unchanged (error paths) or overwrites
exactly the added key; it never deletes a remembered configuration. -/
theorem add_options (e : AutoLimiter) (key : String)
    (opts : List AutoLimiterOption) (r : AutoLimiter × Option String)
    (h : e.Add key opts = some r) :
    r.1.options = e.options ∨
      r.1.options = mapStore e.options key (applyOpts key opts) := by
  simp only [AutoLimiter.Add] at h
  cases hv : validateAdd key (applyOpts key opts) with
  | some msg =>
    rw [hv] at h
    have h2 : some (e, some msg) = some r := h
    cases h2
    exact Or.inl rfl
  | none =>
    rw [hv] at h
    cases hl : e.limiters key with
    | some l =>
      rw [hl] at h
      have h2 : some (e, some "key already exists") = some r := h
      cases h2
      exact Or.inl rfl
    | none =>
      rw [hl] at h
      cases hc : limOfOpts (applyOpts key opts) with
      | none =>
        rw [hc] at h
        exact Option.noConfusion h
      | some rl =>
        rw [hc] at h
        have h2 : some (({ e with
            limiters := mapStore e.limiters key rl,
            options := mapStore e.options key (applyOpts key opts) } : AutoLimiter),
            (none : Option String)) = some r := h
        cases h2
        exact Or.inr rfl

/-- `AddAndTake` never deletes a remembered configuration either. -/
theorem addAndTake_options (e : AutoLimiter) (key : String)
    (opts : List AutoLimiterOption) (r : AutoLimiter × Option String)
    (h : e.AddAndTake key opts = some r) :
    r.1.options = e.options ∨
      r.1.options = mapStore e.options key (applyOpts key opts) := by
  unfold AutoLimiter.AddAndTake AutoLimiter.get at h
  cases hg : e.limiters key with
  | some l =>
    rw [hg] at h
    have h2 : some (e, (none : Option String)) = some r := h
    cases h2
    exact Or.inl rfl
  | none =>
    rw [hg] at h
    cases ha : e.Add key opts with
    | none =>
      rw [ha] at h
      exact Option.noConfusion h
    | some ar =>
      rw [ha] at h
      rcases ar with ⟨e1, err⟩
      cases err with
      | some msg =>
        have h2 : some (e1, some msg) = some r := h
        cases h2
        exact add_options e key opts (e1, some msg) ha
      | none =>
        have h3 : (match e1.Take key with
            | none => none
            | some e2 => some (e2, (none : Option String))) = some r := h
        cases ht : e1.Take key with
        | none =>
          rw [ht] at h3
          exact Option.noConfusion h3
        | some e2 =>
          rw [ht] at h3
          have h4 : some (e2, (none : Option String)) = some r := h3
          cases h4
          have h5 := take_options e1 key e2 ht
          have h6 := add_options e key opts (e1, none) ha
          rw [h5]
          exact h6

/-- The fold inside `Stop` with explicit keys never touches options. -/
theorem stopFold_options : ∀ (keys : List String) (e : AutoLimiter),
    (keys.foldl
      (fun acc v =>
        match acc.limiters v with
        | some _ => { acc with limiters := mapDelete acc.limiters v }
        | none => acc)
      e).options = e.options := by
  intro keys
  induction keys with
  | nil => intro e; rfl
  | cons k ks ih =>
    intro e
    rw [List.foldl_cons]
    cases h : e.limiters k with
    | some l =>
      exact ih { e with limiters := mapDelete e.limiters k }
    | none =>
      exact ih e

/-- `Stop` (with or without keys) never touches options. -/
theorem stop_options (e : AutoLimiter) (keys : List String) :
    (e.Stop keys).options = e.options := by
  unfold AutoLimiter.Stop
  by_cases hk : keys = []
  · subst hk
    rfl
  · rw [if_neg hk]
    exact stopFold_options keys e

/-- `Stop` with a single named key clears exactly that live slot. -/
theorem stop_single_limiters (e : AutoLimiter) (key k : String) :
    (e.Stop [key]).limiters k = if k = key then none else e.limiters k := by
  unfold AutoLimiter.Stop
  rw [if_neg (by simp)]
  rw [List.foldl_cons, List.foldl_nil]
  cases h : e.limiters key with
  | some l =>
    rfl
  | none =>
    by_cases hk : k = key
    · subst hk
      rw [if_pos rfl, h]
    · rw [if_neg hk]

/-- `Remove` clears the live slot at its key. -/
theorem remove_limiters (e : AutoLimiter) (key k : String) :
    (e.Remove key).limiters k = if k = key then none else e.limiters k := by
  unfold AutoLimiter.Remove
  cases h : e.limiters key with
  | some l =>
    rfl
  | none =>
    by_cases hk : k = key
    · subst hk
      rw [if_pos rfl, h]
    · rw [if_neg hk]

/-- `Remove` clears the remembered options at its key. -/
theorem remove_options (e : AutoLimiter) (key k : String) :
    (e.Remove key).options k = if k = key then none else e.options k := by
  unfold AutoLimiter.Remove
  cases h : e.limiters key with
  | some l =>
    rfl
  | none =>
    rfl

/-- C5 (amended): for every key that currently has a *live* limiter, `Add`
with options that pass the inline validation fails with
`ErrAutoKeyAlreadyExists` ("key already exists") and returns the registry
completely unchanged — the existing limiter, its configuration and both maps
are untouched.  The original claim also made `Add` fail for keys with only a
*remembered* configuration; the code checks the live map only, so such keys
are re-addable (see the counterexample), and options failing validation
yield the validation error instead of KeyAlreadyExists. -/
theorem add_existing_live_key (e : AutoLimiter) (key : String)
    (opts : List AutoLimiterOption) (l : Limiter)
    (hv : validateAdd key (applyOpts key opts) = none)
    (hl : e.limiters key = some l) :
    e.Add key opts = some (e, some "key already exists") := by
  simp only [AutoLimiter.Add]
  rw [hv, hl]

/-- C5 witness: a registry with a live limiter at "k" and a valid second
configuration. -/
theorem add_existing_live_key_witness :
    validateAdd "k" (applyOpts "k" [WithMaxCount 3, WithDuration 1]) = none ∧
    regLive.limiters "k" = some limFive ∧
    AutoLimiter.Add regLive "k" [WithMaxCount 3, WithDuration 1] =
      some (regLive, some "key already exists") :=
  ⟨by decide, by decide,
    add_existing_live_key regLive "k" [WithMaxCount 3, WithDuration 1] limFive
      (by decide) (by decide)⟩

/-- C5 counterexample: a key with only a remembered configuration (the state
after `Add` then `Stop`) does not block `Add`: the call returns a nil error
(and stores a fresh limiter plus the new options), contradicting the claim
that Add fails with KeyAlreadyExists for every key with a live limiter *or*
a remembered configuration. -/
theorem add_remembered_key_succeeds :
    regRemembered.limiters "k" = none ∧ regRemembered.options "k" ≠ none ∧
    (AutoLimiter.Add regRemembered "k" [WithMaxCount 3, WithDuration 1]).map
        (fun r => r.2) = some none := by
  refine ⟨by decide, by decide, by decide⟩

/-- C6 (amended): on the auto-provisioning registry, `Take(key)` never
returns an error; when `key` has no live limiter it creates one from the
remembered configuration if present, else from the registry default
(`effectiveOpts`), stores it as live (options map untouched), then blocks on
it — *provided* that configuration constructs, i.e. it is unlimited or has a
positive duration.  With a non-positive effective duration the construction
panics in `time.NewTicker` (see the counterexample), so the original
"never fails" is too strong. -/
theorem take_auto_provisions (e : AutoLimiter) (key : String) (l : Limiter) :
    (e.limiters key = none → limOfOpts (effectiveOpts e key) = some l →
      e.Take key = some { e with limiters := mapStore e.limiters key l }) ∧
    (e.limiters key = some l → e.Take key = some e) := by
  constructor
  · intro h hl
    have hc : e.createOrDefault key =
        some (l, { e with limiters := mapStore e.limiters key l }) := by
      unfold AutoLimiter.createOrDefault
      cases ho : e.options key with
      | none =>
        have hdef : limOfOpts e.defaultOptions = some l := by
          have h1 := hl
          unfold effectiveOpts at h1
          rw [ho] at h1
          exact h1
        unfold AutoLimiter.defaultPath
        rw [hdef]
      | some o =>
        have hdef : limOfOpts o = some l := by
          have h1 := hl
          unfold effectiveOpts at h1
          rw [ho] at h1
          exact h1
        have hr : e.recreateLimiter key =
            some (Except.ok (l, { e with limiters := mapStore e.limiters key l })) := by
          unfold AutoLimiter.recreateLimiter
          rw [ho]
          have hstep : (match limOfOpts o with
              | none => (none : Option (Except String (Limiter × AutoLimiter)))
              | some rlimiter =>
                some (Except.ok (rlimiter,
                  { e with limiters := mapStore e.limiters key rlimiter }))) =
              some (Except.ok (l,
                { e with limiters := mapStore e.limiters key l })) := by
            rw [hdef]
          exact hstep
        rw [hr]
    unfold AutoLimiter.Take AutoLimiter.get
    rw [h, hc]
  · intro h
    unfold AutoLimiter.Take AutoLimiter.get
    rw [h]

/-- C6 witness: provisioning from a remembered configuration recreates the
original limiter (`maxCount` 5, interval 1s), and a live key is taken from
directly. -/
theorem take_auto_provisions_witness :
    regRemembered.limiters "k" = none ∧
    limOfOpts (effectiveOpts regRemembered "k") = some limFive ∧
    AutoLimiter.Take regRemembered "k" =
      some { regRemembered with limiters := mapStore regRemembered.limiters "k" limFive } ∧
    regLive.limiters "k" = some limFive ∧
    AutoLimiter.Take regLive "k" = some regLive :=
  ⟨by decide, by decide,
    (take_auto_provisions regRemembered "k" limFive).1 (by decide) (by decide),
    by decide,
    (take_auto_provisions regLive "k" limFive).2 (by decide)⟩

/-- C6 counterexample: on `NewAutoLimiter(ctx)` — no options, so the default
configuration is zero-valued — `Take` of a missing key reaches
`New(ctx, 0, 0)` and `time.NewTicker(0)` panics (`none` in the model)
instead of succeeding, refuting "Take(key) never fails" as universally
stated. -/
theorem take_zero_default_panics :
    (AutoLimiter.Take (NewAutoLimiter []) "k").isNone = true := by
  decide

/-- C7: `Stop` with a named key clears exactly that live slot and keeps the
whole options map; `Stop()` with no keys clears every live slot and keeps
the options; `Remove` clears both the live slot and the remembered options
at its key; and no public registry operation other than `Remove` ever
deletes a remembered configuration (an options entry present before any
non-`Remove` operation is still present afterwards). -/
theorem stop_remove_frame (e : AutoLimiter) (key k : String) (op : RegistryOp) :
    ((e.Stop [key]).options = e.options) ∧
    ((e.Stop [key]).limiters k = if k = key then none else e.limiters k) ∧
    ((e.Stop []).options = e.options) ∧
    ((e.Stop []).limiters k = none) ∧
    ((e.Remove key).limiters k = if k = key then none else e.limiters k) ∧
    ((e.Remove key).options k = if k = key then none else e.options k) ∧
    (op.isRemove = false → e.options k ≠ none →
      (applyOp e op).elim True (fun e2 => e2.options k ≠ none)) := by
  refine ⟨stop_options e [key], stop_single_limiters e key k, stop_options e [],
    rfl, remove_limiters e key k, remove_options e key k, ?_⟩
  intro hrem hopt
  cases op with
  | remove key2 => exact absurd hrem (by simp [RegistryOp.isRemove])
  | stop keys =>
    show (e.Stop keys).options k ≠ none
    rw [stop_options e keys]
    exact hopt
  | add key2 opts =>
    show ((e.Add key2 opts).map (fun r => r.1)).elim True
      (fun e2 => e2.options k ≠ none)
    cases ha : e.Add key2 opts with
    | none => exact trivial
    | some r =>
      show r.1.options k ≠ none
      rcases add_options e key2 opts r ha with hcase | hcase
      · rw [hcase]
        exact hopt
      · rw [hcase]
        show (if k = key2 then some (applyOpts key2 opts) else e.options k) ≠ none
        by_cases hk : k = key2
        · rw [if_pos hk]
          exact fun hcon => Option.noConfusion hcon
        · rw [if_neg hk]
          exact hopt
  | take key2 =>
    show (e.Take key2).elim True (fun e2 => e2.options k ≠ none)
    cases ht : e.Take key2 with
    | none => exact trivial
    | some e1 =>
      show e1.options k ≠ none
      rw [take_options e key2 e1 ht]
      exact hopt
  | canTake key2 =>
    show ((e.CanTake key2).map (fun r => r.2)).elim True
      (fun e2 => e2.options k ≠ none)
    cases hct : e.CanTake key2 with
    | none => exact trivial
    | some r =>
      show r.2.options k ≠ none
      rw [cantake_options e key2 r hct]
      exact hopt
  | allow key2 =>
    show ((e.Allow key2).map (fun r => r.2)).elim True
      (fun e2 => e2.options k ≠ none)
    cases hal : e.Allow key2 with
    | none => exact trivial
    | some r =>
      show r.2.options k ≠ none
      rw [allow_options e key2 r hal]
      exact hopt
  | allowN key2 n =>
    show ((e.AllowN key2 n).map (fun r => r.2)).elim True
      (fun e2 => e2.options k ≠ none)
    cases han : e.AllowN key2 n with
    | none => exact trivial
    | some r =>
      show r.2.options k ≠ none
      rw [allowN_options e key2 n r han]
      exact hopt
  | addAndTake key2 opts =>
    show ((e.AddAndTake key2 opts).map (fun r => r.1)).elim True
      (fun e2 => e2.options k ≠ none)
    cases ha : e.AddAndTake key2 opts with
    | none => exact trivial
    | some r =>
      show r.1.options k ≠ none
      rcases addAndTake_options e key2 opts r ha with hcase | hcase
      · rw [hcase]
        exact hopt
      · rw [hcase]
        show (if k = key2 then some (applyOpts key2 opts) else e.options k) ≠ none
        by_cases hk : k = key2
        · rw [if_pos hk]
          exact fun hcon => Option.noConfusion hcon
        · rw [if_neg hk]
          exact hopt

/-- C7 witness: a registry with a live limiter and a remembered
configuration at "k"; the non-Remove operation exercised is `Take "x"`. -/
theorem stop_remove_frame_witness :
    RegistryOp.isRemove (RegistryOp.take "x") = false ∧
    regBoth.options "k" ≠ none ∧
    ((regBoth.Stop ["k"]).options = regBoth.options) ∧
    ((regBoth.Stop ["k"]).limiters "k" =
      if "k" = "k" then none else regBoth.limiters "k") ∧
    ((regBoth.Stop []).options = regBoth.options) ∧
    ((regBoth.Stop []).limiters "k" = none) ∧
    ((regBoth.Remove "k").limiters "k" =
      if "k" = "k" then none else regBoth.limiters "k") ∧
    ((regBoth.Remove "k").options "k" =
      if "k" = "k" then none else regBoth.options "k") ∧
    ((applyOp regBoth (RegistryOp.take "x")).elim True
      (fun e2 => e2.options "k" ≠ none)) := by
  have h := stop_remove_frame regBoth "k" "k" (RegistryOp.take "x")
  exact ⟨by decide, by decide, h.1, h.2.1, h.2.2.1, h.2.2.2.1, h.2.2.2.2.1,
    h.2.2.2.2.2.1, h.2.2.2.2.2.2 (by decide) (by decide)⟩

/-- C8: for a windowed-strategy limiter, `CanTake` answers true exactly when
the permit counter is nonzero, and it returns the limiter unchanged — it
never consumes a permit and touches neither counter, limit nor interval. -/
theorem cantake_reports_counter (l : Limiter) (h : l.strategy = Strategy.None) :
    ((Limiter.CanTake l).1 = true ↔ l.count ≠ 0) ∧ (Limiter.CanTake l).2 = l := by
  rcases l with ⟨st, mc, iv, c, la, lb, tks⟩
  cases st with
  | LeakyBucket => exact Strategy.noConfusion h
  | None =>
    constructor
    · show (decide (0 < c) = true) ↔ c ≠ 0
      simp [Nat.pos_iff_ne_zero]
    · rfl

/-- C8 witness: a windowed limiter with 5 permits. -/
theorem cantake_reports_counter_witness :
    limFive.strategy = Strategy.None ∧
    (((Limiter.CanTake limFive).1 = true ↔ limFive.count ≠ 0) ∧
      (Limiter.CanTake limFive).2 = limFive) :=
  ⟨by decide, cantake_reports_counter limFive (by decide)⟩

/-- C9: after `SetLimit(n)` a `GetLimit()` returns `n mod 2^32` (the
`uint32` store truncates), and `New(ctx, max, d)` initializes both the
capacity and the permit counter to `max mod 2^32`. -/
theorem setlimit_new_uint32 (l : Limiter) (n max : Nat) (d : ℚ) (lim : Limiter)
    (hnew : New max d = some lim) :
    (l.SetLimit n).GetLimit = n % 2 ^ 32 ∧
    lim.maxCount = max % 2 ^ 32 ∧ lim.count = max % 2 ^ 32 := by
  have hfields : lim.maxCount = max % 2 ^ 32 ∧ lim.count = max % 2 ^ 32 := by
    unfold New at hnew
    by_cases hd : d ≤ 0
    · rw [if_pos hd] at hnew
      exact Option.noConfusion hnew
    · rw [if_neg hd] at hnew
      have h2 :
          some ({ strategy := Strategy.None, maxCount := max % 2 ^ 32,
                  interval := d, count := max % 2 ^ 32, leakyLimit := 0,
                  leakyBurst := 0, leakyTokens := 0 } : Limiter) = some lim := hnew
      cases h2
      exact ⟨rfl, rfl⟩
  refine ⟨?_, hfields.1, hfields.2⟩
  rcases l with ⟨st, mc, iv, c, la, lb, tks⟩
  cases st <;> rfl

/-- C9 witness: `max = 2^32 + 7` truncates to 7, `n = 2^32 + 5` truncates to
5. -/
theorem setlimit_new_uint32_witness :
    New 4294967303 1 = some limSeven ∧
    ((limFive.SetLimit 4294967301).GetLimit = 4294967301 % 2 ^ 32 ∧
      limSeven.maxCount = 4294967303 % 2 ^ 32 ∧
      limSeven.count = 4294967303 % 2 ^ 32) :=
  ⟨by decide,
    setlimit_new_uint32 limFive 4294967301 4294967303 1 limSeven (by decide)⟩

/-- C10: `Allow` and `CanTake` are the same operation on the registry — they
are definitionally equal functions of the state and key, so they return the
same boolean and have the same effect (identical auto-provisioning of
missing keys); on a live key neither changes the registry at all, and no
permit is consumed. -/
theorem allow_eq_cantake (e : AutoLimiter) (key : String) (l : Limiter) :
    e.Allow key = e.CanTake key ∧
    (e.limiters key = some l → e.CanTake key = some ((Limiter.CanTake l).1, e)) := by
  constructor
  · rfl
  · intro h
    unfold AutoLimiter.CanTake AutoLimiter.get
    rw [h]

/-- C10 witness: a registry with a live limiter at "k". -/
theorem allow_eq_cantake_witness :
    regLive.limiters "k" = some limFive ∧
    (AutoLimiter.Allow regLive "k" = AutoLimiter.CanTake regLive "k" ∧
      AutoLimiter.CanTake regLive "k" = some ((Limiter.CanTake limFive).1, regLive)) :=
  ⟨by decide, (allow_eq_cantake regLive "k" limFive).1,
    (allow_eq_cantake regLive "k" limFive).2 (by decide)⟩
